import Mathlib

/-!
Verification of the academy management back end (Express + Mongoose + Clerk).

Shallow embedding of the server-side data and access layer:

* roster integrity: the legacy PUT /api/users/:id/enroll and /unenroll
  handlers (api/index.js), modelled as explicit state transformers over an
  association-list store, with injectable write failures and a trace of the
  issued writes;
* the IdP mirror on PUT /api/user/:id (email change) and DELETE /api/user/:id
  (api/routes/user-routes.js), with injectable IdP failures;
* the allowSelfOrPriv gate and the GET /api/user handler
  (api/routes/user-routes.js);
* the GET /api/students-with-classes projection, its pagination guards, and
  its field selection.

Mongo update operators are modelled by their documented set semantics:
addToSet appends an element when absent, pull removes every occurrence.
JavaScript numeric coercion in the pagination guards is modelled over Int,
with the or-default idiom mapping zero (and absent values) to the default.
-/

/-- Mongo addToSet: append the element when it is not already present. -/
def addToSet (l : List String) (x : String) : List String :=
  if x ∈ l then l else l ++ [x]

/-- Mongo pull with an equality predicate: remove every occurrence. -/
def pullElem (l : List String) (x : String) : List String :=
  l.filter (fun y => y ≠ x)

/-- mongoose.Types.ObjectId.isValid on strings: a 24 character hex string or
any 12 character string. -/
def isValidObjectId (s : String) : Bool :=
  s.length = 12 ||
    (s.length = 24 && s.toList.all (fun ch =>
      ch.isDigit || (ch ≥ 'a' && ch ≤ 'f') || (ch ≥ 'A' && ch ≤ 'F')))

/-! ## Pagination guards of GET /api/students-with-classes

Source (api/routes/user-routes.js):
  const limit = Math.max(1, Math.min(200, Number(req.query.limit) || 100));
  const page  = Math.max(1, Number(req.query.page) || 1);
  const skip  = (page - 1) * limit;
A query value is modelled as an optional integer; none stands for an absent
or non-numeric parameter, for which Number yields NaN. Both NaN and 0 are
falsy, so the or-default maps them to the default. -/

/-- JavaScript (Number(q) || d): absent or non-numeric or zero gives d. -/
def numOr (q : Option Int) (d : Int) : Int :=
  match q with
  | none => d
  | some n => if n = 0 then d else n

/-- Effective limit of GET /api/students-with-classes. -/
def effLimit (q : Option Int) : Int :=
  max 1 (min 200 (numOr q 100))

/-- Effective page of GET /api/students-with-classes. -/
def effPage (q : Option Int) : Int :=
  max 1 (numOr q 1)

/-- Effective skip of GET /api/students-with-classes. -/
def effSkip (page limit : Option Int) : Int :=
  (effPage page - 1) * effLimit limit

/-! ## Roster state and the legacy enroll / unenroll handlers

Source (api/index.js). The store is modelled as association lists of user
and class documents; only the fields these handlers read or write are kept.
The two Mongo writes of each handler can be made to fail through the w1ok
and w2ok flags, and the handler records every write it issues in a trace,
in issue order. An exception thrown by a write is caught by the handler
and surfaced as status 500; writes already applied stay applied. -/

structure UserEnt where
  uid : String
  enrolled : List String
deriving DecidableEq

structure ClassEnt where
  cid : String
  roster : List String
  isEnrollmentOpen : Bool
deriving DecidableEq

structure RosterSt where
  users : List UserEnt
  classes : List ClassEnt
deriving DecidableEq

def findUser (s : RosterSt) (id : String) : Option UserEnt :=
  s.users.find? (fun u => u.uid = id)

def findClass (s : RosterSt) (id : String) : Option ClassEnt :=
  s.classes.find? (fun c => c.cid = id)

/-- The writes the enroll and unenroll handlers can issue. -/
inductive WEvent where
  | addUserEnrolled
  | addClassRoster
  | pullUserEnrolled
  | pullClassRoster
deriving DecidableEq

/-- PUT /api/users/:id/enroll (api/index.js). Checks, in source order:
ObjectId validity of the user id (400), the user document (a missing user
makes user.enrolledClasses throw, caught as 500), prior enrollment (400),
class existence (404), isEnrollmentOpen (403); then issues
addToSet enrolledClasses on the user and addToSet roster on the class, and
answers 201. No compensation is attempted when a write fails. -/
def enrollHandler (w1ok w2ok : Bool) (id classId : String) (s : RosterSt) :
    Nat × RosterSt × List WEvent :=
  if ¬ isValidObjectId id then (400, s, [])
  else
    match findUser s id with
    | none => (500, s, [])
    | some u =>
      if classId ∈ u.enrolled then (400, s, [])
      else
        match findClass s classId with
        | none => (404, s, [])
        | some c =>
          if ¬ c.isEnrollmentOpen then (403, s, [])
          else if ¬ w1ok then (500, s, [WEvent.addUserEnrolled])
          else
            let s1 : RosterSt :=
              { s with users := s.users.map (fun v =>
                  if v.uid = id then { v with enrolled := addToSet v.enrolled classId } else v) }
            if ¬ w2ok then (500, s1, [WEvent.addUserEnrolled, WEvent.addClassRoster])
            else
              (201,
               { s1 with classes := s1.classes.map (fun d =>
                   if d.cid = classId then { d with roster := addToSet d.roster id } else d) },
               [WEvent.addUserEnrolled, WEvent.addClassRoster])

/-- PUT /api/users/:id/unenroll (api/index.js). Checks ObjectId validity
(400), the user document (500 on a missing user), membership of classId in
enrolledClasses (400 when not enrolled); then issues pull enrolledClasses on
the user and pull roster on the class, and answers 201. -/
def unenrollHandler (w1ok w2ok : Bool) (id classId : String) (s : RosterSt) :
    Nat × RosterSt × List WEvent :=
  if ¬ isValidObjectId id then (400, s, [])
  else
    match findUser s id with
    | none => (500, s, [])
    | some u =>
      if classId ∉ u.enrolled then (400, s, [])
      else if ¬ w1ok then (500, s, [WEvent.pullUserEnrolled])
      else
        let s1 : RosterSt :=
          { s with users := s.users.map (fun v =>
              if v.uid = id then { v with enrolled := pullElem v.enrolled classId } else v) }
        if ¬ w2ok then (500, s1, [WEvent.pullUserEnrolled, WEvent.pullClassRoster])
        else
          (201,
           { s1 with classes := s1.classes.map (fun d =>
               if d.cid = classId then { d with roster := pullElem d.roster id } else d) },
           [WEvent.pullUserEnrolled, WEvent.pullClassRoster])

/-- The route as mounted in api/index.js: app.put with no middleware in the
chain, so the handler never consults the session. The session argument is
what an authentication layer would have attached; it is deliberately unused,
mirroring the mount. -/
def enrollRoute (_session : Option String) (id classId : String) (s : RosterSt) :
    Nat × RosterSt :=
  let r := enrollHandler true true id classId s
  (r.1, r.2.1)

/-- The unenroll route as mounted in api/index.js, again with no middleware. -/
def unenrollRoute (_session : Option String) (id classId : String) (s : RosterSt) :
    Nat × RosterSt :=
  let r := unenrollHandler true true id classId s
  (r.1, r.2.1)

/-- A successful enroll, both writes succeeding: some final state on 201. -/
def enrollOk (id classId : String) (s : RosterSt) : Option RosterSt :=
  let r := enrollHandler true true id classId s
  if r.1 = 201 then some r.2.1 else none

/-- A successful unenroll, both writes succeeding: some final state on 201. -/
def unenrollOk (id classId : String) (s : RosterSt) : Option RosterSt :=
  let r := unenrollHandler true true id classId s
  if r.1 = 201 then some r.2.1 else none

/-- One enroll or unenroll request on an arbitrary user / class pair. -/
inductive RosterOp where
  | enr (id classId : String)
  | unenr (id classId : String)
deriving DecidableEq

def applyOp : RosterOp → RosterSt → Option RosterSt
  | RosterOp.enr id classId, s => enrollOk id classId s
  | RosterOp.unenr id classId, s => unenrollOk id classId s

/-- A sequence of successful operations; any failed operation aborts. -/
def runOps : List RosterOp → RosterSt → Option RosterSt
  | [], s => some s
  | op :: rest, s =>
    match applyOp op s with
    | none => none
    | some s1 => runOps rest s1

/-- Roster consistency: enrolled lists and rosters are duplicate free, and
membership is bi-directional between users.enrolledClasses and
classes.roster (spec section 3, invariants 3 and 5). -/
def consistent (s : RosterSt) : Prop :=
  (∀ u ∈ s.users, u.enrolled.Nodup) ∧
  (∀ c ∈ s.classes, c.roster.Nodup) ∧
  (∀ u ∈ s.users, ∀ c ∈ s.classes, (c.cid ∈ u.enrolled ↔ u.uid ∈ c.roster))

instance (s : RosterSt) : Decidable (consistent s) := by
  unfold consistent
  infer_instance

/-! ## The user document and the shared role helpers

Source (api/routes/user-routes.js). Only the fields the modelled routes
read are kept. -/

structure UserDoc where
  id : String
  clerkId : String
  privilege : String
  email : String
  whatsapp : String
deriving DecidableEq

/-- getMe: resolve the requester by Clerk session, looking the user up by
clerkId. requireAuth has already run, so a subject id is present. -/
def getMe (db : List UserDoc) (subjectId : String) : Option UserDoc :=
  db.find? (fun u => u.clerkId = subjectId)

/-- isAdminOrInstructor from user-routes.js: truthy user document whose
privilege is admin or instructor. -/
def isAdminOrInstructor (m : Option UserDoc) : Bool :=
  match m with
  | some u => u.privilege = "admin" || u.privilege = "instructor"
  | none => false

/-! ## The allowSelfOrPriv gate (api/routes/user-routes.js) -/

inductive GateRes where
  | pass
  | reject (status : Nat)
deriving DecidableEq

def findTargetUser (db : List UserDoc) (pid : String) : Option UserDoc :=
  db.find? (fun u => u.id = pid)

/-- allowSelfOrPriv: pass a privileged requester; otherwise 400 on a falsy
or malformed :id, 404 on a missing target, pass when the target clerkId
equals the (truthy) session subject id, 403 otherwise. -/
def allowSelfOrPriv (db : List UserDoc) (subjectId paramId : String) : GateRes :=
  if isAdminOrInstructor (getMe db subjectId) then GateRes.pass
  else if paramId = "" || ¬ isValidObjectId paramId then GateRes.reject 400
  else
    match findTargetUser db paramId with
    | none => GateRes.reject 404
    | some t =>
      if subjectId ≠ "" ∧ t.clerkId = subjectId then GateRes.pass
      else GateRes.reject 403

/-! ## GET /api/user (api/routes/user-routes.js) -/

/-- Modelled from the spec: validate-utils.js is not under src. Section 4.2,
filterToAllowlist: keep only the query keys that appear in the allowlist and
carry a non-empty string value. -/
def validateInput (query : List (String × String)) (allowed : List String) :
    List (String × String) :=
  query.filter (fun kv => allowed.contains kv.1 && kv.2 ≠ "")

/-- The value a user document holds at an allowlisted filter key. -/
def userField (u : UserDoc) (k : String) : Option String :=
  if k = "_id" then some u.id
  else if k = "email" then some u.email
  else if k = "whatsapp" then some u.whatsapp
  else none

/-- User.findOne(filters): equality on every filter key. -/
def matchesFilters (fs : List (String × String)) (u : UserDoc) : Bool :=
  fs.all (fun kv => userField u kv.1 = some kv.2)

inductive GetUserRes where
  | ok (u : UserDoc)
  | notFound
deriving DecidableEq

/-- GET /api/user: a privileged requester with a non-empty validated filter
queries an arbitrary user; everyone else gets the document whose clerkId is
the session subject id. 404 when the lookup finds nothing. -/
def getUserHandler (db : List UserDoc) (subjectId : String)
    (query : List (String × String)) : GetUserRes :=
  let filters := validateInput query ["_id", "email", "whatsapp"]
  let isPriv := isAdminOrInstructor (getMe db subjectId)
  let user :=
    if isPriv && ¬ filters.isEmpty then db.find? (matchesFilters filters)
    else db.find? (fun u => u.clerkId = subjectId)
  match user with
  | none => GetUserRes.notFound
  | some u => GetUserRes.ok u

/-! ## The IdP mirror on PUT /api/user/:id (api/routes/user-routes.js)

The handler runs after requireAuth and allowSelfOrPriv, on a found user.
Modelled state: the local user document (email, clerkId and an opaque rest
field standing for the remaining updatable fields) and the list of email
addresses the IdP holds for the subject. The IdP add can be made to fail
through addOk; a thrown IdP error is caught and surfaced as status 500.
The trace records the IdP calls and the local write in issue order. -/

structure MUser where
  email : String
  clerkId : String
  rest : String
deriving DecidableEq

/-- The request body of PUT /api/user/:id: an optional email field and an
opaque stand-in for the other updatable fields. -/
structure MUpdates where
  email : Option String
  rest : Option String
deriving DecidableEq

/-- User.findByIdAndUpdate(id, updates): fields present in the body replace
the stored ones. -/
def applyUpdates (u : MUser) (up : MUpdates) : MUser :=
  { u with email := up.email.getD u.email, rest := up.rest.getD u.rest }

inductive MirrorEv where
  | idpAdd (e : String)
  | idpGetUser
  | idpDelete (e : String)
  | localWrite
deriving DecidableEq

structure MirrorRes where
  status : Nat
  user : MUser
  clerk : List String
  trace : List MirrorEv
deriving DecidableEq

/-- PUT /api/user/:id after the gates, on the found user. The mirror runs
only under the source guard (updates.email && original.email !== updates.email),
so only for a truthy (non-empty) new email that differs: first create the
new address on the IdP (fail: caught, 500, nothing written), then read the
subject back, delete the old address when found, and finally write the local
update. With a falsy or unchanged updates.email only the local write runs. -/
def putUserHandler (addOk : Bool) (orig : MUser) (up : MUpdates)
    (clerk : List String) : MirrorRes :=
  match up.email with
  | some e =>
    if e ≠ "" ∧ orig.email ≠ e then
      if addOk then
        let clerk1 := e :: clerk
        match clerk1.find? (fun a => a = orig.email) with
        | some old =>
          ⟨200, applyUpdates orig up, clerk1.erase old,
            [MirrorEv.idpAdd e, MirrorEv.idpGetUser, MirrorEv.idpDelete old,
             MirrorEv.localWrite]⟩
        | none =>
          ⟨200, applyUpdates orig up, clerk1,
            [MirrorEv.idpAdd e, MirrorEv.idpGetUser, MirrorEv.localWrite]⟩
      else ⟨500, orig, clerk, [MirrorEv.idpAdd e]⟩
    else ⟨200, applyUpdates orig up, clerk, [MirrorEv.localWrite]⟩
  | none => ⟨200, applyUpdates orig up, clerk, [MirrorEv.localWrite]⟩

/-! ## DELETE /api/user/:id (api/routes/user-routes.js)

State: the user collection, the class collection, and the set of IdP
subjects. Roster pulls are issued for every class id in the enrolled list
(Promise.all: issued writes complete even when one rejects); pullOk injects
per-class failures and clerkOk injects an IdP deletion failure. Source
order: roster pulls, then clerkClient.users.deleteUser, then
User.findByIdAndDelete. -/

structure DUser where
  id : String
  clerkId : String
  enrolledClasses : List String
  rest : String
deriving DecidableEq

structure DClass where
  id : String
  roster : List String
deriving DecidableEq

structure DelSt where
  users : List DUser
  classes : List DClass
  clerkUsers : List String
deriving DecidableEq

/-- DELETE /api/user/:id: 400 on a malformed id, 404 on a missing user;
pull the user id from the roster of every enrolled class (failures caught,
rethrown: 500 after the surviving pulls applied); delete the IdP subject
(failure caught: 500, local store as after the pulls); finally delete the
local record and answer 204. -/
def deleteUserHandler (pullOk : String → Bool) (clerkOk : Bool) (uid : String)
    (s : DelSt) : Nat × DelSt :=
  if ¬ isValidObjectId uid then (400, s)
  else
    match s.users.find? (fun v => v.id = uid) with
    | none => (404, s)
    | some u =>
      let classes1 := s.classes.map (fun c =>
        if c.id ∈ u.enrolledClasses && pullOk c.id
        then { c with roster := pullElem c.roster uid } else c)
      let s1 : DelSt := { s with classes := classes1 }
      if u.enrolledClasses.any (fun cd => ¬ pullOk cd) then (500, s1)
      else if ¬ clerkOk then (500, s1)
      else
        (204,
         { users := s1.users.filter (fun v => v.id ≠ uid),
           classes := classes1,
           clerkUsers := s.clerkUsers.erase u.clerkId })

/-! ## GET /api/students-with-classes (api/routes/user-routes.js)

The handler filters on privilege student only, pages with skip and limit,
populates enrolledClasses, and counts the same filter in parallel. The
request record carries the level and q query parameters the client wrapper
sends; the handler reads neither. Level values follow spec section 3: an
integer or one of the tags conversation and ielts (the Class schema file is
not under src). -/

inductive LevelV where
  | num (n : Int)
  | conversation
  | ielts
deriving DecidableEq

structure SwcClass where
  cid : String
  level : LevelV
  ageGroup : String
  instructor : String
  isEnrollmentOpen : Bool
  image : String
deriving DecidableEq

structure SwcUser where
  uid : String
  firstName : String
  lastName : String
  email : String
  privilege : String
  whatsapp : String
  enrolledClasses : List String
deriving DecidableEq

structure SwcDb where
  users : List SwcUser
  classes : List SwcClass
deriving DecidableEq

structure SwcReq where
  page : Option Int
  limit : Option Int
  level : Option LevelV
  q : Option String
deriving DecidableEq

/-- A returned item: the selected user fields with enrolledClasses replaced
by the populated class documents. -/
structure SwcItem where
  firstName : String
  lastName : String
  email : String
  privilege : String
  enrolledClasses : List SwcClass
deriving DecidableEq

structure SwcResp where
  items : List SwcItem
  total : Nat
  page : Int
  limit : Int
deriving DecidableEq

def swcLookupClass (db : SwcDb) (cid : String) : Option SwcClass :=
  db.classes.find? (fun c => c.cid = cid)

/-- GET /api/students-with-classes: page and limit guards, the
privilege student filter, populate of enrolledClasses (missing references
dropped), and the parallel count over the same filter. The level and q
request fields are never read, as in the source. -/
def studentsWithClasses (req : SwcReq) (db : SwcDb) : SwcResp :=
  let limit := effLimit req.limit
  let page := effPage req.page
  let skip := (page - 1) * limit
  let students := db.users.filter (fun u => u.privilege = "student")
  let pageUsers := (students.drop skip.toNat).take limit.toNat
  { items := pageUsers.map (fun u =>
      { firstName := u.firstName, lastName := u.lastName, email := u.email,
        privilege := u.privilege,
        enrolledClasses := u.enrolledClasses.filterMap (swcLookupClass db) }),
    total := students.length,
    page := page,
    limit := limit }

/-- The spec filter of section 4.11: the student has at least one enrolled
class whose level matches the supplied value. Stated from the spec to
compare the handler against the claimed filtering. -/
def hasLevelClass (db : SwcDb) (lv : LevelV) (u : SwcUser) : Bool :=
  u.enrolledClasses.any (fun cid =>
    match swcLookupClass db cid with
    | some c => c.level = lv
    | none => false)

/-! ## Field selection of the projection (C8)

The select strings of the source,
  userSelect  = firstName lastName email privilege enrolledClasses creationDate
  classSelect = level ageGroup instructor schedule isEnrollmentOpen image
split on blanks, and the select operation over a generic document model, so
that absence of whatsapp, roster and link is a statement about every
possible stored document. A mongoose inclusive projection always also
returns the _id key unless it is excluded explicitly, which the source never
does; the select operation therefore keeps _id besides the named keys, for
the outer select and for the populate select alike. -/

inductive BsonVal where
  | prim (s : String)
  | arr (vs : List BsonVal)
  | obj (fields : List (String × BsonVal))

/-- The user select list of GET /api/students-with-classes. -/
def swcUserFields : List String :=
  ["firstName", "lastName", "email", "privilege", "enrolledClasses", "creationDate"]

/-- The class select list of the populate in GET /api/students-with-classes. -/
def swcClassFields : List String :=
  ["level", "ageGroup", "instructor", "schedule", "isEnrollmentOpen", "image"]

/-- Mongoose inclusive select: keep the named keys of a document, plus the
always-included _id key, which the source never excludes. -/
def selectKeys (sel : List String) (d : List (String × BsonVal)) :
    List (String × BsonVal) :=
  d.filter (fun kv => kv.1 = "_id" || sel.contains kv.1)

/-- Populate of the enrolledClasses value: each stored reference is replaced
by the referenced document projected to the class select list; missing
references and non-reference entries are dropped; a non-array value is left
untouched. -/
def populateEnrolled (lookup : String → Option (List (String × BsonVal))) :
    BsonVal → BsonVal
  | BsonVal.arr vs =>
    BsonVal.arr (vs.filterMap (fun v =>
      match v with
      | BsonVal.prim cid =>
        (lookup cid).map (fun d => BsonVal.obj (selectKeys swcClassFields d))
      | _ => none))
  | v => v

/-- One response item: the user document projected to the user select list,
with the enrolledClasses value populated. -/
def mkStudentItem (lookup : String → Option (List (String × BsonVal)))
    (d : List (String × BsonVal)) : List (String × BsonVal) :=
  (selectKeys swcUserFields d).map (fun kv =>
    if kv.1 = "enrolledClasses" then (kv.1, populateEnrolled lookup kv.2) else kv)

/-- The elements of an array value. -/
def arrElems : BsonVal → List BsonVal
  | BsonVal.arr vs => vs
  | _ => []

/-! ## Concrete fixtures for counterexamples and witnesses -/

/-- One user with no enrollments and one open empty class. The user id is a
12 character string, a valid ObjectId. -/
def tinySt : RosterSt :=
  { users := [{ uid := "uuuuuuuuuuuu", enrolled := [] }],
    classes := [{ cid := "c1", roster := [], isEnrollmentOpen := true }] }

def ops0 : List RosterOp :=
  [RosterOp.enr "uuuuuuuuuuuu" "c1",
   RosterOp.unenr "uuuuuuuuuuuu" "c1",
   RosterOp.enr "uuuuuuuuuuuu" "c1"]

def finSt : RosterSt :=
  { users := [{ uid := "uuuuuuuuuuuu", enrolled := ["c1"] }],
    classes := [{ cid := "c1", roster := ["uuuuuuuuuuuu"], isEnrollmentOpen := true }] }

def mUser0 : MUser := { email := "a@x", clerkId := "ck1", rest := "r0" }

/-- A request body whose email key holds the empty string. -/
def mUp0 : MUpdates := { email := some "", rest := none }

/-- A request body carrying a fresh non-empty email. -/
def mUpW : MUpdates := { email := some "b@x", rest := none }

def delU0 : DUser :=
  { id := "uuuuuuuuuuuu", clerkId := "ck1", enrolledClasses := ["c1"], rest := "r0" }

def delSt0 : DelSt :=
  { users := [delU0],
    classes := [{ id := "c1", roster := ["uuuuuuuuuuuu"] }],
    clerkUsers := ["ck1"] }

def gdoc0 : UserDoc :=
  { id := "uuuuuuuuuuuu", clerkId := "ck1", privilege := "student",
    email := "a@x", whatsapp := "w1" }

def gdb0 : List UserDoc := [gdoc0]

def swcU1 : SwcUser :=
  { uid := "u1", firstName := "A", lastName := "B", email := "e@x",
    privilege := "student", whatsapp := "w", enrolledClasses := [] }

def db1 : SwcDb := { users := [swcU1], classes := [] }

/-- A request that supplies the level parameter. -/
def req1 : SwcReq := { page := none, limit := none, level := some (LevelV.num 5), q := none }

def item1 : SwcItem :=
  { firstName := "A", lastName := "B", email := "e@x", privilege := "student",
    enrolledClasses := [] }

def lookupW : String → Option (List (String × BsonVal)) := fun cid =>
  if cid = "c1" then
    some [("_id", BsonVal.prim "cid1"), ("level", BsonVal.prim "3"),
          ("roster", BsonVal.arr [])]
  else none

def docW : List (String × BsonVal) :=
  [("_id", BsonVal.prim "u1"), ("firstName", BsonVal.prim "A"),
   ("whatsapp", BsonVal.prim "p"),
   ("enrolledClasses", BsonVal.arr [BsonVal.prim "c1"])]

/-! ## Helper lemmas on the Mongo set operations -/

theorem mem_addToSet {l : List String} {x y : String} :
    y ∈ addToSet l x ↔ y ∈ l ∨ y = x := by
  unfold addToSet
  split
  · constructor
    · exact Or.inl
    · rintro (h | rfl)
      · exact h
      · assumption
  · simp [List.mem_append]

theorem addToSet_nodup {l : List String} {x : String} (h : l.Nodup) :
    (addToSet l x).Nodup := by
  unfold addToSet
  split
  · exact h
  · rw [List.nodup_append]
    exact ⟨h, List.nodup_singleton x, by simpa [List.disjoint_singleton] using ‹x ∉ l›⟩

theorem mem_pullElem {l : List String} {x y : String} :
    y ∈ pullElem l x ↔ y ∈ l ∧ y ≠ x := by
  simp [pullElem, List.mem_filter]

theorem pullElem_nodup {l : List String} {x : String} (h : l.Nodup) :
    (pullElem l x).Nodup :=
  h.filter _

theorem isValidObjectId_ne_empty {p : String} (h : isValidObjectId p = true) :
    p ≠ "" := by
  intro he
  subst he
  exact absurd h (by decide)

/-! ## Inversion and preservation for the successful roster operations -/

theorem enrollOk_inv {id cid : String} {s s2 : RosterSt}
    (h : enrollOk id cid s = some s2) :
    ∃ u c, findUser s id = some u ∧ cid ∉ u.enrolled ∧
      findClass s cid = some c ∧ c.isEnrollmentOpen = true ∧
      s2 = { users := s.users.map (fun v =>
               if v.uid = id then { v with enrolled := addToSet v.enrolled cid } else v),
             classes := s.classes.map (fun d =>
               if d.cid = cid then { d with roster := addToSet d.roster id } else d) } := by
  unfold enrollOk enrollHandler at h
  by_cases hv : isValidObjectId id
  · simp only [hv, not_true_eq_false, if_false] at h
    cases hu : findUser s id with
    | none => rw [hu] at h; simp at h
    | some u =>
      rw [hu] at h
      by_cases hmem : cid ∈ u.enrolled
      · simp [hmem] at h
      · simp only [hmem, if_false] at h
        cases hc : findClass s cid with
        | none => rw [hc] at h; simp at h
        | some c =>
          rw [hc] at h
          by_cases hop : c.isEnrollmentOpen
          · simp only [hop, not_true_eq_false, if_false, Bool.not_true] at h
            simp at h
            exact ⟨u, c, rfl, hmem, rfl, hop, h.symm⟩
          · simp [hop] at h
  · simp [hv] at h

theorem unenrollOk_inv {id cid : String} {s s2 : RosterSt}
    (h : unenrollOk id cid s = some s2) :
    ∃ u, findUser s id = some u ∧ cid ∈ u.enrolled ∧
      s2 = { users := s.users.map (fun v =>
               if v.uid = id then { v with enrolled := pullElem v.enrolled cid } else v),
             classes := s.classes.map (fun d =>
               if d.cid = cid then { d with roster := pullElem d.roster id } else d) } := by
  unfold unenrollOk unenrollHandler at h
  by_cases hv : isValidObjectId id
  · simp only [hv, not_true_eq_false, if_false] at h
    cases hu : findUser s id with
    | none => rw [hu] at h; simp at h
    | some u =>
      rw [hu] at h
      by_cases hmem : cid ∈ u.enrolled
      · simp only [hmem, not_true_eq_false, if_false] at h
        simp at h
        exact ⟨u, rfl, hmem, h.symm⟩
      · simp [hmem] at h
  · simp [hv] at h

theorem enroll_preserves {id cid : String} {s s2 : RosterSt}
    (hc : consistent s) (h : enrollOk id cid s = some s2) : consistent s2 := by
  obtain ⟨u, c, _, _, _, _, rfl⟩ := enrollOk_inv h
  obtain ⟨hn1, hn2, hbi⟩ := hc
  refine ⟨?_, ?_, ?_⟩
  · intro v hv
    rw [List.mem_map] at hv
    obtain ⟨v0, hv0, rfl⟩ := hv
    by_cases hid : v0.uid = id
    · rw [if_pos hid]
      exact addToSet_nodup (hn1 v0 hv0)
    · rw [if_neg hid]
      exact hn1 v0 hv0
  · intro d hd
    rw [List.mem_map] at hd
    obtain ⟨d0, hd0, rfl⟩ := hd
    by_cases hdid : d0.cid = cid
    · rw [if_pos hdid]
      exact addToSet_nodup (hn2 d0 hd0)
    · rw [if_neg hdid]
      exact hn2 d0 hd0
  · intro v hv d hd
    rw [List.mem_map] at hv hd
    obtain ⟨v0, hv0, rfl⟩ := hv
    obtain ⟨d0, hd0, rfl⟩ := hd
    by_cases hvid : v0.uid = id <;> by_cases hdid : d0.cid = cid
    · rw [if_pos hvid, if_pos hdid]
      simp [mem_addToSet, hvid, hdid]
    · rw [if_pos hvid, if_neg hdid]
      simp only [mem_addToSet]
      constructor
      · rintro (hm | hm)
        · exact (hbi v0 hv0 d0 hd0).mp hm
        · exact absurd hm hdid
      · intro hm
        exact Or.inl ((hbi v0 hv0 d0 hd0).mpr hm)
    · rw [if_neg hvid, if_pos hdid]
      simp only [mem_addToSet]
      constructor
      · intro hm
        exact Or.inl ((hbi v0 hv0 d0 hd0).mp hm)
      · rintro (hm | hm)
        · exact (hbi v0 hv0 d0 hd0).mpr hm
        · exact absurd hm hvid
    · rw [if_neg hvid, if_neg hdid]
      exact hbi v0 hv0 d0 hd0

theorem unenroll_preserves {id cid : String} {s s2 : RosterSt}
    (hc : consistent s) (h : unenrollOk id cid s = some s2) : consistent s2 := by
  obtain ⟨u, _, _, rfl⟩ := unenrollOk_inv h
  obtain ⟨hn1, hn2, hbi⟩ := hc
  refine ⟨?_, ?_, ?_⟩
  · intro v hv
    rw [List.mem_map] at hv
    obtain ⟨v0, hv0, rfl⟩ := hv
    by_cases hid : v0.uid = id
    · rw [if_pos hid]
      exact pullElem_nodup (hn1 v0 hv0)
    · rw [if_neg hid]
      exact hn1 v0 hv0
  · intro d hd
    rw [List.mem_map] at hd
    obtain ⟨d0, hd0, rfl⟩ := hd
    by_cases hdid : d0.cid = cid
    · rw [if_pos hdid]
      exact pullElem_nodup (hn2 d0 hd0)
    · rw [if_neg hdid]
      exact hn2 d0 hd0
  · intro v hv d hd
    rw [List.mem_map] at hv hd
    obtain ⟨v0, hv0, rfl⟩ := hv
    obtain ⟨d0, hd0, rfl⟩ := hd
    by_cases hvid : v0.uid = id <;> by_cases hdid : d0.cid = cid
    · rw [if_pos hvid, if_pos hdid]
      simp [mem_pullElem, hvid, hdid]
    · rw [if_pos hvid, if_neg hdid]
      simp only [mem_pullElem]
      constructor
      · rintro ⟨hm, _⟩
        exact (hbi v0 hv0 d0 hd0).mp hm
      · intro hm
        exact ⟨(hbi v0 hv0 d0 hd0).mpr hm, hdid⟩
    · rw [if_neg hvid, if_pos hdid]
      simp only [mem_pullElem]
      constructor
      · intro hm
        exact ⟨(hbi v0 hv0 d0 hd0).mp hm, hvid⟩
      · rintro ⟨hm, _⟩
        exact (hbi v0 hv0 d0 hd0).mpr hm
    · rw [if_neg hvid, if_neg hdid]
      exact hbi v0 hv0 d0 hd0

theorem runOps_preserves :
    ∀ (ops : List RosterOp) (s s2 : RosterSt),
      consistent s → runOps ops s = some s2 → consistent s2 := by
  intro ops
  induction ops with
  | nil =>
    intro s s2 hc h
    simp [runOps] at h
    exact h ▸ hc
  | cons op rest ih =>
    intro s s2 hc h
    unfold runOps at h
    cases hop : applyOp op s with
    | none => rw [hop] at h; simp at h
    | some s1 =>
      rw [hop] at h
      have hc1 : consistent s1 := by
        cases op with
        | enr id cid => exact enroll_preserves hc hop
        | unenr id cid => exact unenroll_preserves hc hop
      exact ih s1 s2 hc1 h

/-! ## Claim theorems -/

/-- C7: every sequence of successful enroll and unenroll operations on
arbitrary user / class pairs, run from a consistent state, ends in a state
where a class id lies in a user's enrolledClasses exactly when the user id
lies in that class's roster, and every roster holds a user id at most
once. -/
theorem c7_enroll_unenroll_bidirectional (s s2 : RosterSt) (ops : List RosterOp)
    (hc : consistent s) (h : runOps ops s = some s2) :
    (∀ u ∈ s2.users, ∀ c ∈ s2.classes, (c.cid ∈ u.enrolled ↔ u.uid ∈ c.roster)) ∧
    (∀ c ∈ s2.classes, c.roster.Nodup) := by
  have hall := runOps_preserves ops s s2 hc h
  exact ⟨hall.2.2, hall.2.1⟩

/-- Witness for C7: an enroll, an unenroll and a re-enroll of the same pair
run successfully from the consistent state tinySt and end in finSt, whose
single roster is duplicate free by the theorem. -/
theorem c7_witness :
    consistent tinySt ∧ runOps ops0 tinySt = some finSt ∧
      (∀ c ∈ finSt.classes, c.roster.Nodup) :=
  ⟨by decide, by decide,
   (c7_enroll_unenroll_bidirectional tinySt finSt ops0 (by decide) (by decide)).2⟩

/-- C5 counterexample: on tinySt, with the roster write failing, the enroll
handler answers 500 and its trace holds no compensating pull, while the
class id stays in the user's enrolled list: the claimed compensating pull
is never attempted. -/
theorem c5_counterexample :
    (enrollHandler true false "uuuuuuuuuuuu" "c1" tinySt).1 = 500 ∧
    WEvent.pullUserEnrolled ∉ (enrollHandler true false "uuuuuuuuuuuu" "c1" tinySt).2.2 ∧
    (∃ u ∈ (enrollHandler true false "uuuuuuuuuuuu" "c1" tinySt).2.1.users,
      u.uid = "uuuuuuuuuuuu" ∧ "c1" ∈ u.enrolled) := by
  decide

/-- C5 (amended): the user-side addToSet is issued before the class-side
addToSet (the trace is always a front segment of that two-write order), and
when the second write fails the error is surfaced as 500 with the class id
left in the user's enrolled list and the class collection untouched; no
compensating pull is attempted. -/
theorem c5_enroll_order_no_compensation :
    (∀ w1ok w2ok id cid s,
      (enrollHandler w1ok w2ok id cid s).2.2 = [] ∨
      (enrollHandler w1ok w2ok id cid s).2.2 = [WEvent.addUserEnrolled] ∨
      (enrollHandler w1ok w2ok id cid s).2.2 =
        [WEvent.addUserEnrolled, WEvent.addClassRoster]) ∧
    (∀ s id cid u c, findUser s id = some u → cid ∉ u.enrolled →
      findClass s cid = some c → c.isEnrollmentOpen = true →
      isValidObjectId id = true →
      (enrollHandler true false id cid s).1 = 500 ∧
      (enrollHandler true false id cid s).2.2 =
        [WEvent.addUserEnrolled, WEvent.addClassRoster] ∧
      WEvent.pullUserEnrolled ∉ (enrollHandler true false id cid s).2.2 ∧
      (∀ v ∈ (enrollHandler true false id cid s).2.1.users,
        v.uid = id → cid ∈ v.enrolled) ∧
      (enrollHandler true false id cid s).2.1.classes = s.classes) := by
  constructor
  · intro w1ok w2ok id cid s
    unfold enrollHandler
    split
    · exact Or.inl rfl
    · split
      · exact Or.inl rfl
      · split
        · exact Or.inl rfl
        · split
          · exact Or.inl rfl
          · split
            · exact Or.inl rfl
            · split
              · exact Or.inr (Or.inl rfl)
              · split
                · exact Or.inr (Or.inr rfl)
                · exact Or.inr (Or.inr rfl)
  · intro s id cid u c hu hnc hcl hop hv
    have hrun : enrollHandler true false id cid s =
        (500,
         { s with users := s.users.map (fun v =>
             if v.uid = id then { v with enrolled := addToSet v.enrolled cid } else v) },
         [WEvent.addUserEnrolled, WEvent.addClassRoster]) := by
      unfold enrollHandler
      rw [hu, hcl]
      simp [hv, hnc, hop]
    refine ⟨by rw [hrun], by rw [hrun], by rw [hrun]; simp, ?_, by rw [hrun]⟩
    intro v hvmem hvid
    rw [hrun] at hvmem
    simp only [List.mem_map] at hvmem
    obtain ⟨v0, hv0, rfl⟩ := hvmem
    by_cases h0 : v0.uid = id
    · rw [if_pos h0]
      exact mem_addToSet.mpr (Or.inr rfl)
    · rw [if_neg h0] at hvid ⊢
      exact absurd hvid h0

/-- Witness for C5 (amended): the failure clause applied to tinySt. -/
theorem c5_witness :
    (enrollHandler true false "uuuuuuuuuuuu" "c1" tinySt).1 = 500 ∧
    (enrollHandler true false "uuuuuuuuuuuu" "c1" tinySt).2.1.classes = tinySt.classes :=
  have h := c5_enroll_order_no_compensation.2 tinySt "uuuuuuuuuuuu" "c1"
    { uid := "uuuuuuuuuuuu", enrolled := [] }
    { cid := "c1", roster := [], isEnrollmentOpen := true }
    (by decide) (by decide) (by decide) (by decide) (by decide)
  ⟨h.1, h.2.2.2.2⟩

/-- C2 counterexample: a request with no session at all reaches the enroll
handler unchecked, answers 201 and changes the store, refuting the claim
that sessionless requests are rejected without modification. -/
theorem c2_counterexample :
    (enrollRoute none "uuuuuuuuuuuu" "c1" tinySt).1 = 201 ∧
    (enrollRoute none "uuuuuuuuuuuu" "c1" tinySt).2 ≠ tinySt := by
  decide

/-- C2 (amended): the enroll and unenroll routes are mounted with no
authentication middleware: their outcome is identical for every session
value, and a request with no session succeeds (201) whenever the user
exists, is not yet enrolled, and the class exists and is open. -/
theorem c2_enroll_ignores_session :
    (∀ session id cid s,
      enrollRoute session id cid s = enrollRoute none id cid s ∧
      unenrollRoute session id cid s = unenrollRoute none id cid s) ∧
    (∀ s id cid u c (session : Option String),
      findUser s id = some u → cid ∉ u.enrolled →
      findClass s cid = some c → c.isEnrollmentOpen = true →
      isValidObjectId id = true →
      (enrollRoute session id cid s).1 = 201) := by
  constructor
  · intro session id cid s
    exact ⟨rfl, rfl⟩
  · intro s id cid u c session hu hnc hcl hop hv
    unfold enrollRoute enrollHandler
    rw [hu, hcl]
    simp [hv, hnc, hop]

/-- Witness for C2 (amended): a sessionless enroll on tinySt answers 201. -/
theorem c2_witness :
    (enrollRoute (some "tok") "uuuuuuuuuuuu" "c1" tinySt).1 = 201 :=
  c2_enroll_ignores_session.2 tinySt "uuuuuuuuuuuu" "c1"
    { uid := "uuuuuuuuuuuu", enrolled := [] }
    { cid := "c1", roster := [], isEnrollmentOpen := true }
    (some "tok") (by decide) (by decide) (by decide) (by decide) (by decide)

/-- C3 counterexample: a body whose email key holds the empty string differs
from the stored address, yet the source guard (updates.email is falsy) skips
the whole IdP mirror: the run performs no IdP add, only the local write,
and the local email changes — refuting the claim that on any differing
updates.email the IdP add precedes every local write. -/
theorem c3_counterexample :
    mUp0.email = some "" ∧ mUser0.email ≠ "" ∧
    (putUserHandler true mUser0 mUp0 ["a@x"]).trace = [MirrorEv.localWrite] ∧
    (putUserHandler true mUser0 mUp0 ["a@x"]).user.email ≠ mUser0.email := by
  decide

/-- C3 (amended): when updates.email is non-empty and differs from the
stored email, the IdP add of the new address is the first effect of the
run — before the local write and before the old-address delete — and when
that add fails the handler answers 500 with the local record unchanged and
nothing but the failed add in the trace. -/
theorem c3_email_mirror_order (addOk : Bool) (orig : MUser) (up : MUpdates)
    (clerk : List String) (e : String)
    (he : up.email = some e) (hne : e ≠ "") (hdiff : orig.email ≠ e) :
    (putUserHandler addOk orig up clerk).trace.head? = some (MirrorEv.idpAdd e) ∧
    (addOk = false →
      (putUserHandler addOk orig up clerk).status = 500 ∧
      (putUserHandler addOk orig up clerk).user = orig ∧
      (putUserHandler addOk orig up clerk).trace = [MirrorEv.idpAdd e]) := by
  unfold putUserHandler
  rw [he]
  dsimp only
  rw [if_pos ⟨hne, hdiff⟩]
  cases addOk with
  | false => simp
  | true =>
    simp only [if_true]
    constructor
    · split <;> rfl
    · intro hfalse
      exact absurd hfalse (by simp)

/-- Witness for C3 (amended): a failing IdP add on a genuine email change
leaves the local record untouched and answers 500. -/
theorem c3_witness :
    (putUserHandler false mUser0 mUpW ["a@x"]).status = 500 ∧
    (putUserHandler false mUser0 mUpW ["a@x"]).user = mUser0 :=
  have h := (c3_email_mirror_order false mUser0 mUpW ["a@x"] "b@x"
    rfl (by decide) (by decide)).2 rfl
  ⟨h.1, h.2.1⟩

/-- C4 counterexample: the user is enrolled in one class; with the IdP
deletion failing, the handler answers 500 and the local User record
survives, but the class collection no longer equals its pre-request state —
the roster pull had already been issued before the IdP call — refuting the
claim that the local store is left unchanged. -/
theorem c4_counterexample :
    (deleteUserHandler (fun _ => true) false "uuuuuuuuuuuu" delSt0).1 = 500 ∧
    (∃ v ∈ (deleteUserHandler (fun _ => true) false "uuuuuuuuuuuu" delSt0).2.users,
      v.id = "uuuuuuuuuuuu") ∧
    (deleteUserHandler (fun _ => true) false "uuuuuuuuuuuu" delSt0).2.classes ≠
      delSt0.classes := by
  decide

/-- C4 (amended): the IdP subject is deleted before the local record — on a
failing IdP deletion the handler answers 500 with the user collection
unchanged, though the user id has already been pulled from the rosters of
the enrolled classes; only on a successful IdP deletion does the handler
answer 204 and remove the local record. -/
theorem c4_delete_idp_order (s : DelSt) (uid : String) (u : DUser)
    (pullOk : String → Bool) (clerkOk : Bool)
    (hv : isValidObjectId uid = true)
    (hu : s.users.find? (fun v => v.id = uid) = some u)
    (hp : ∀ cd, pullOk cd = true) :
    (clerkOk = false →
      (deleteUserHandler pullOk clerkOk uid s).1 = 500 ∧
      (deleteUserHandler pullOk clerkOk uid s).2.users = s.users ∧
      (∀ c ∈ (deleteUserHandler pullOk clerkOk uid s).2.classes,
        c.id ∈ u.enrolledClasses → uid ∉ c.roster)) ∧
    (clerkOk = true →
      (deleteUserHandler pullOk clerkOk uid s).1 = 204 ∧
      (∀ v ∈ (deleteUserHandler pullOk clerkOk uid s).2.users, v.id ≠ uid)) := by
  have hpulled : ∀ c ∈ s.classes.map (fun c =>
      if c.id ∈ u.enrolledClasses && pullOk c.id
      then { c with roster := pullElem c.roster uid } else c),
      c.id ∈ u.enrolledClasses → uid ∉ c.roster := by
    intro c hc hcid
    rw [List.mem_map] at hc
    obtain ⟨c0, hc0, rfl⟩ := hc
    by_cases hin : c0.id ∈ u.enrolledClasses
    · rw [if_pos (by simp [hin, hp c0.id])]
      intro hmem
      exact (mem_pullElem.mp hmem).2 rfl
    · rw [if_neg (by simp [hin])] at hcid ⊢
      exact absurd hcid hin
  have hnofail : (u.enrolledClasses.any (fun cd => ¬ pullOk cd)) = false := by
    simp [hp]
  cases clerkOk with
  | false =>
    have hrun : deleteUserHandler pullOk false uid s =
        (500, { s with classes := s.classes.map (fun c =>
          if c.id ∈ u.enrolledClasses && pullOk c.id
          then { c with roster := pullElem c.roster uid } else c) }) := by
      unfold deleteUserHandler
      rw [hu]
      simp [hv, hnofail, hp]
    refine ⟨fun _ => ⟨by rw [hrun], by rw [hrun], ?_⟩, fun h => by simp at h⟩
    rw [hrun]
    exact hpulled
  | true =>
    have hrun : deleteUserHandler pullOk true uid s =
        (204,
         { users := s.users.filter (fun v => v.id ≠ uid),
           classes := s.classes.map (fun c =>
             if c.id ∈ u.enrolledClasses && pullOk c.id
             then { c with roster := pullElem c.roster uid } else c),
           clerkUsers := s.clerkUsers.erase u.clerkId }) := by
      unfold deleteUserHandler
      rw [hu]
      simp [hv, hnofail, hp]
    refine ⟨fun h => by simp at h, fun _ => ⟨by rw [hrun], ?_⟩⟩
    rw [hrun]
    intro v hvmem
    simp only [List.mem_filter, decide_eq_true_eq] at hvmem
    exact hvmem.2

/-- Witness for C4 (amended): the failing-IdP clause applied to delSt0. -/
theorem c4_witness :
    (deleteUserHandler (fun _ => true) false "uuuuuuuuuuuu" delSt0).1 = 500 ∧
    (deleteUserHandler (fun _ => true) false "uuuuuuuuuuuu" delSt0).2.users =
      delSt0.users :=
  have h := (c4_delete_idp_order delSt0 "uuuuuuuuuuuu" delU0 (fun _ => true) false
    (by decide) (by decide) (fun _ => rfl)).1 rfl
  ⟨h.1, h.2.1⟩

/-- C6: under a non-empty session subject id and a store whose ids are valid
ObjectIds, the allowSelfOrPriv gate passes exactly when the requester is
privileged or the target user found at :id carries the requester's clerkId;
a non-privileged requester is otherwise rejected with 400 on a falsy or
malformed :id, 404 on a missing target, and 403 in every remaining case. -/
theorem c6_allow_self_or_priv_cases (db : List UserDoc) (subjectId paramId : String)
    (hs : subjectId ≠ "") (hvalid : ∀ u ∈ db, isValidObjectId u.id = true) :
    (allowSelfOrPriv db subjectId paramId = GateRes.pass ↔
      (isAdminOrInstructor (getMe db subjectId) = true ∨
        ∃ t, findTargetUser db paramId = some t ∧ t.clerkId = subjectId)) ∧
    (isAdminOrInstructor (getMe db subjectId) = false →
      ((paramId = "" ∨ isValidObjectId paramId = false) →
        allowSelfOrPriv db subjectId paramId = GateRes.reject 400) ∧
      (isValidObjectId paramId = true → findTargetUser db paramId = none →
        allowSelfOrPriv db subjectId paramId = GateRes.reject 404) ∧
      (∀ t, findTargetUser db paramId = some t → t.clerkId ≠ subjectId →
        allowSelfOrPriv db subjectId paramId = GateRes.reject 403)) := by
  have hval_of_find : ∀ t, findTargetUser db paramId = some t →
      isValidObjectId paramId = true := by
    intro t ht
    have hmem := List.mem_of_find?_eq_some ht
    have hid : t.id = paramId := by simpa using List.find?_some ht
    exact hid ▸ hvalid t hmem
  by_cases hpriv : isAdminOrInstructor (getMe db subjectId) = true
  · have hg : allowSelfOrPriv db subjectId paramId = GateRes.pass := by
      unfold allowSelfOrPriv
      rw [if_pos hpriv]
    refine ⟨⟨fun _ => Or.inl hpriv, fun _ => hg⟩, fun hf => absurd hpriv (by simp [hf])⟩
  · have hg0 : allowSelfOrPriv db subjectId paramId =
        (if paramId = "" || ¬ isValidObjectId paramId then GateRes.reject 400
         else
           match findTargetUser db paramId with
           | none => GateRes.reject 404
           | some t =>
             if subjectId ≠ "" ∧ t.clerkId = subjectId then GateRes.pass
             else GateRes.reject 403) := by
      unfold allowSelfOrPriv
      rw [if_neg hpriv]
    by_cases hval : isValidObjectId paramId = true
    · have hne : paramId ≠ "" := isValidObjectId_ne_empty hval
      have hg1 : allowSelfOrPriv db subjectId paramId =
          (match findTargetUser db paramId with
           | none => GateRes.reject 404
           | some t =>
             if subjectId ≠ "" ∧ t.clerkId = subjectId then GateRes.pass
             else GateRes.reject 403) := by
        rw [hg0]
        simp [hval, hne]
      cases hfind : findTargetUser db paramId with
      | none =>
        have hg : allowSelfOrPriv db subjectId paramId = GateRes.reject 404 := by
          rw [hg1, hfind]
        refine ⟨?_, fun _ => ⟨?_, fun _ _ => hg, ?_⟩⟩
        · rw [hg]
          constructor
          · intro h
            simp at h
          · rintro (h | ⟨t, ht, _⟩)
            · exact absurd h hpriv
            · simp at ht
        · rintro (h | h)
          · exact absurd h hne
          · exact absurd hval (by simp [h])
        · intro t ht _
          simp at ht
      | some t =>
        by_cases hck : t.clerkId = subjectId
        · have hg : allowSelfOrPriv db subjectId paramId = GateRes.pass := by
            rw [hg1, hfind]
            exact if_pos ⟨hs, hck⟩
          refine ⟨⟨fun _ => Or.inr ⟨t, rfl, hck⟩, fun _ => hg⟩,
            fun _ => ⟨?_, ?_, ?_⟩⟩
          · rintro (h | h)
            · exact absurd h hne
            · exact absurd hval (by simp [h])
          · intro _ h
            simp at h
          · intro t2 ht2 hck2
            obtain rfl : t = t2 := by simpa using ht2
            exact absurd hck hck2
        · have hcond : ¬ (subjectId ≠ "" ∧ t.clerkId = subjectId) := fun h => hck h.2
          have hg : allowSelfOrPriv db subjectId paramId = GateRes.reject 403 := by
            rw [hg1, hfind]
            exact if_neg hcond
          refine ⟨?_, fun _ => ⟨?_, ?_, fun _ _ _ => hg⟩⟩
          · rw [hg]
            constructor
            · intro h
              simp at h
            · rintro (h | ⟨t2, ht2, hck2⟩)
              · exact absurd h hpriv
              · obtain rfl : t = t2 := by simpa using ht2
                exact absurd hck2 hck
          · rintro (h | h)
            · exact absurd h hne
            · exact absurd hval (by simp [h])
          · intro _ h
            simp at h
    · have hvalf : isValidObjectId paramId = false := by
        simpa using hval
      have hg : allowSelfOrPriv db subjectId paramId = GateRes.reject 400 := by
        rw [hg0]
        simp [hvalf]
      refine ⟨?_, fun _ => ⟨fun _ => hg, ?_, ?_⟩⟩
      · rw [hg]
        constructor
        · intro h
          simp at h
        · rintro (h | ⟨t, ht, _⟩)
          · exact absurd h hpriv
          · exact absurd (hval_of_find t ht) hval
      · intro h1 _
        exact absurd h1 hval
      · intro t ht _
        exact absurd (hval_of_find t ht) hval

/-- Witness for C6: on a one-student store, the student passes the gate for
their own record id. -/
theorem c6_witness : allowSelfOrPriv gdb0 "ck1" "uuuuuuuuuuuu" = GateRes.pass :=
  (c6_allow_self_or_priv_cases gdb0 "ck1" "uuuuuuuuuuuu" (by decide)
    (by decide)).1.mpr (Or.inr ⟨gdoc0, by decide, rfl⟩)

/-- C10: for a requester whose resolved privilege is neither admin nor
instructor, GET /api/user returns the same result for every query, and any
returned record carries the requester's own session subject id as clerkId. -/
theorem c10_get_user_nonpriv_self (db : List UserDoc) (subjectId : String)
    (hnp : isAdminOrInstructor (getMe db subjectId) = false) :
    (∀ q1 q2, getUserHandler db subjectId q1 = getUserHandler db subjectId q2) ∧
    (∀ q u, getUserHandler db subjectId q = GetUserRes.ok u →
      u.clerkId = subjectId) := by
  constructor
  · intro q1 q2
    unfold getUserHandler
    rw [hnp]
    simp
  · intro q u h
    unfold getUserHandler at h
    rw [hnp] at h
    simp only [Bool.false_and, if_false] at h
    cases hf : db.find? (fun v => v.clerkId = subjectId) with
    | none => rw [hf] at h; simp at h
    | some u0 =>
      rw [hf] at h
      have hinj : u0 = u := by simpa using h
      have hpred := List.find?_some hf
      simp only [decide_eq_true_eq] at hpred
      exact hinj ▸ hpred

/-- Witness for C10: a student requester gets the same answer with and
without a probing email filter, and the returned clerkId is their own. -/
theorem c10_witness :
    getUserHandler gdb0 "ck1" [("email", "zzz")] = getUserHandler gdb0 "ck1" [] ∧
    gdoc0.clerkId = "ck1" :=
  ⟨(c10_get_user_nonpriv_self gdb0 "ck1" (by decide)).1 [("email", "zzz")] [],
   (c10_get_user_nonpriv_self gdb0 "ck1" (by decide)).2 [] gdoc0 (by decide)⟩

/-- C9 counterexample: a request with limit equal to 0 is not clamped to 1 —
the JavaScript or-default treats 0 as absent, so the effective limit is the
default 100. -/
theorem c9_counterexample : effLimit (some 0) = 100 ∧ effLimit (some 0) ≠ 1 := by
  decide

/-- C9 (amended): the effective limit always lies in the interval from 1 to
200 with default 100, the effective page is at least 1, and skip is
(page - 1) * limit; limit 0 falls back to the default 100 and limit 10000
clamps to 200. -/
theorem c9_pagination_guards :
    (∀ ql, 1 ≤ effLimit ql ∧ effLimit ql ≤ 200) ∧
    effLimit none = 100 ∧
    (∀ qp, 1 ≤ effPage qp) ∧
    (∀ qp ql, effSkip qp ql = (effPage qp - 1) * effLimit ql) ∧
    effLimit (some 0) = 100 ∧
    effLimit (some 10000) = 200 := by
  refine ⟨?_, by decide, ?_, fun qp ql => rfl, by decide, by decide⟩
  · intro ql
    exact ⟨le_max_left _ _, max_le (by norm_num) (min_le_left _ _)⟩
  · intro qp
    exact le_max_left _ _

/-- C1 counterexample: with level supplied, the lone student with no
enrolled classes still appears in items, and total counts every student
rather than the students matching the level filter — the handler never
reads the level parameter. -/
theorem c1_counterexample :
    req1.level = some (LevelV.num 5) ∧
    (∃ it ∈ (studentsWithClasses req1 db1).items,
      ∀ c ∈ it.enrolledClasses, c.level ≠ LevelV.num 5) ∧
    (studentsWithClasses req1 db1).total ≠
      (db1.users.filter (fun u =>
        u.privilege = "student" && hasLevelClass db1 (LevelV.num 5) u)).length := by
  decide

/-- C1 (amended): GET /api/students-with-classes ignores the level and q
parameters entirely — the response equals the one for the same page and
limit with no filters, total is the count of all privilege student users,
and every returned item is a student, matching class or not. -/
theorem c1_swc_ignores_level (req : SwcReq) (db : SwcDb) :
    studentsWithClasses req db =
      studentsWithClasses
        { page := req.page, limit := req.limit, level := none, q := none } db ∧
    (studentsWithClasses req db).total =
      (db.users.filter (fun u => u.privilege = "student")).length ∧
    (∀ it ∈ (studentsWithClasses req db).items, it.privilege = "student") := by
  refine ⟨rfl, rfl, ?_⟩
  intro it hit
  simp only [studentsWithClasses] at hit
  rw [List.mem_map] at hit
  obtain ⟨u, hu, rfl⟩ := hit
  have h1 := List.mem_of_mem_drop (List.mem_of_mem_take hu)
  have h2 := List.mem_filter.mp h1
  simpa using h2.2

/-- Witness for C1 (amended): the one-student store answers total 1, and the
returned item is a student. -/
theorem c1_witness :
    (studentsWithClasses req1 db1).total = 1 ∧ item1.privilege = "student" :=
  ⟨(c1_swc_ignores_level req1 db1).2.1.trans (by decide),
   (c1_swc_ignores_level req1 db1).2.2 item1 (by decide)⟩

/-- C8 counterexample: a stored user document carrying its _id projects to
an item whose key set is not inside the six-field user select list — the
inclusive select also returns _id — and the populated class object likewise
carries _id, which lies outside the class select list. -/
theorem c8_counterexample :
    (¬ ∀ kv ∈ mkStudentItem lookupW docW, kv.1 ∈ swcUserFields) ∧
    mkStudentItem lookupW docW =
      [("_id", BsonVal.prim "u1"), ("firstName", BsonVal.prim "A"),
       ("enrolledClasses", BsonVal.arr [BsonVal.obj
         [("_id", BsonVal.prim "cid1"), ("level", BsonVal.prim "3")]])] ∧
    ("_id" : String) ∉ swcClassFields :=
  ⟨by decide, rfl, by decide⟩

/-- C8 (amended): for every stored user document and class lookup, each key
of the students-with-classes item lies in the user select list or is _id —
in particular it is never whatsapp — and each key of a populated class
object inside the enrolledClasses value lies in the class select list or is
_id — in particular never roster and never link. -/
theorem c8_projection_allowlist (lookup : String → Option (List (String × BsonVal)))
    (d : List (String × BsonVal)) :
    (∀ kv ∈ mkStudentItem lookup d,
      (kv.1 ∈ swcUserFields ∨ kv.1 = "_id") ∧ kv.1 ≠ "whatsapp") ∧
    (∀ kv ∈ mkStudentItem lookup d, kv.1 = "enrolledClasses" →
      ∀ cd, BsonVal.obj cd ∈ arrElems kv.2 →
        ∀ f ∈ cd, (f.1 ∈ swcClassFields ∨ f.1 = "_id") ∧
          f.1 ≠ "roster" ∧ f.1 ≠ "link") := by
  constructor
  · intro kv hkv
    unfold mkStudentItem at hkv
    rw [List.mem_map] at hkv
    obtain ⟨kv0, hkv0, rfl⟩ := hkv
    simp only [selectKeys, List.mem_filter] at hkv0
    have hmem : kv0.1 ∈ swcUserFields ∨ kv0.1 = "_id" := by
      have := hkv0.2
      simp at this
      tauto
    have hkey : (if kv0.1 = "enrolledClasses"
        then (kv0.1, populateEnrolled lookup kv0.2) else kv0).1 = kv0.1 := by
      split <;> rfl
    rw [hkey]
    refine ⟨hmem, ?_⟩
    intro heq
    rcases hmem with h | h
    · rw [heq] at h
      exact absurd h (by decide)
    · rw [heq] at h
      exact absurd h (by decide)
  · intro kv hkv hk cd hcd f hf
    unfold mkStudentItem at hkv
    rw [List.mem_map] at hkv
    obtain ⟨kv0, hkv0, rfl⟩ := hkv
    by_cases h0 : kv0.1 = "enrolledClasses"
    · rw [if_pos h0] at hcd
      cases hv2 : kv0.2 with
      | prim s =>
        rw [hv2] at hcd
        simp [populateEnrolled, arrElems] at hcd
      | obj l =>
        rw [hv2] at hcd
        simp [populateEnrolled, arrElems] at hcd
      | arr vs =>
        rw [hv2] at hcd
        simp only [populateEnrolled, arrElems] at hcd
        rw [List.mem_filterMap] at hcd
        obtain ⟨v, _, hveq⟩ := hcd
        cases v with
        | prim cid =>
          rw [Option.map_eq_some'] at hveq
          obtain ⟨d2, _, hobj⟩ := hveq
          have hcd2 : cd = selectKeys swcClassFields d2 := by
            injection hobj.symm
          rw [hcd2] at hf
          simp only [selectKeys, List.mem_filter] at hf
          have hmem : f.1 ∈ swcClassFields ∨ f.1 = "_id" := by
            have := hf.2
            simp at this
            tauto
          refine ⟨hmem, ?_, ?_⟩
          · intro heq
            rcases hmem with h | h
            · rw [heq] at h
              exact absurd h (by decide)
            · rw [heq] at h
              exact absurd h (by decide)
          · intro heq
            rcases hmem with h | h
            · rw [heq] at h
              exact absurd h (by decide)
            · rw [heq] at h
              exact absurd h (by decide)
        | arr _ => simp at hveq
        | obj _ => simp at hveq
    · rw [if_neg h0] at hk
      exact absurd hk h0

/-- Witness for C8 (amended): the _id key of a concrete item falls under the
or-is-id disjunct and is not whatsapp. -/
theorem c8_witness :
    (("_id" : String) ∈ swcUserFields ∨ ("_id" : String) = "_id") ∧
      ("_id" : String) ≠ "whatsapp" :=
  (c8_projection_allowlist lookupW docW).1 ("_id", BsonVal.prim "u1")
    (List.mem_cons_self _ _)
